import Mathlib

/-!
Verification of the layered storage engine of the `some` package manager:
CSV-backed source ring, staging ring with changelog, overlay views, the
repository interface and the commit/flush pipeline.

The definitions below are a shallow embedding of the Rust sources:
`src/store/mod.rs` (overlay schema and rings), `src/store/tag.rs`,
`src/store/thing.rs`, `src/store/thing_tag.rs`, `src/store/change.rs`,
`src/services/staging.rs`, `src/entities/*.rs` and `src/thing.rs`.
Relations are embedded as lists of rows in the order SQLite would produce
them (tables in rowid/insertion order; `UNION ALL` is list append in the
order of its arms, matching the view text in `OVERLAY_SCHEMA`).
-/

/-- Record type `tag::Record` from `src/entities/tag.rs`: `id`, optional `name`,
optional `summary`. -/
structure TagRecord where
  id : String
  name : Option String
  summary : Option String
deriving Repr, DecidableEq

/-- Record type `thing::Record` from `src/entities/thing.rs`: `url`, `name`,
optional `summary`, `category_id`. -/
structure ThingRecord where
  url : String
  name : String
  summary : Option String
  category_id : String
deriving Repr, DecidableEq

/-- A row of a `thing_tag` relation (`src/entities/thingtag.rs`): both
columns are `text NOT NULL`. -/
structure ThingtagRow where
  thing_id : String
  tag_id : String
deriving Repr, DecidableEq

/-- A raw row of the CSV-backed `source.tag` virtual table: every cell is a
string; an absent value is the empty string. -/
structure SourceTagRow where
  id : String
  name : String
  summary : String
deriving Repr, DecidableEq

/-- A raw row of the CSV-backed `source.thing` virtual table. -/
structure SourceThingRow where
  url : String
  name : String
  summary : String
  category_id : String
deriving Repr, DecidableEq

/-- Payload type `entities::change::Data`: the payload of a changelog event. -/
inductive Data where
  | thing (url : String) (name : String) (summary : Option String)
      (category : String) (tags : List String)
  | tag (id : String) (name : Option String) (summary : Option String)
deriving Repr, DecidableEq

/-- Payload type `entities::change::DataRef`: the payload of a `Delete` event. -/
inductive DataRef where
  | thing (id : String)
  | tag (id : String)
deriving Repr, DecidableEq

/-- Operation type `entities::change::Change`: the operation of a changelog event. -/
inductive Change where
  | insert (d : Data)
  | replace (d : Data)
  | delete (r : DataRef)
deriving Repr, DecidableEq

/-- True exactly on `Insert` events. -/
def Change.isInsert : Change → Bool
  | .insert _ => true
  | _ => false

/-- True exactly on the `Replace`/`Delete` events the flush pipeline does
not implement. -/
def Change.isUnsupported : Change → Bool
  | .insert _ => false
  | _ => true

/-- A row of `staging.changelog`: a generated timestamp plus the decoded
JSON `data` payload (operation, kind and id are generated columns derived
from that payload). -/
structure ChangelogRow where
  timestamp : Nat
  change : Change
deriving Repr, DecidableEq

/-- The state of one open `Store`: the three CSV-backed source relations,
the three staging tables and the staging changelog
(`create_source_db` / `create_staging_db` in `src/store/mod.rs`). -/
structure StoreState where
  sourceTag : List SourceTagRow
  sourceThing : List SourceThingRow
  sourceThingTag : List ThingtagRow
  stagingTag : List TagRecord
  stagingThing : List ThingRecord
  stagingThingTag : List ThingtagRow
  changelog : List ChangelogRow
deriving Repr, DecidableEq

/-- The `iif(summary = '', NULL, summary)` normalization applied to the
source arm of the `tag` and `thing` overlay views in `OVERLAY_SCHEMA`. -/
def decodeSourceSummary (s : String) : Option String :=
  if s = "" then none else some s

/-- The staging arm of the `tag` overlay view: rows of `staging.changelog`
with `kind = 'tag'` and `operation = 'insert'`, projected through
`json_extract` (`OVERLAY_SCHEMA` in `src/store/mod.rs`). -/
def stagingTagRows (cl : List ChangelogRow) : List TagRecord :=
  cl.filterMap fun row =>
    match row.change with
    | .insert (.tag id name summary) => some ⟨id, name, summary⟩
    | _ => none

/-- The source arm of the `tag` overlay view: `source.tag` rows with the
empty-string summary normalization. -/
def sourceTagRows (rows : List SourceTagRow) : List TagRecord :=
  rows.map fun r => ⟨r.id, some r.name, decodeSourceSummary r.summary⟩

/-- The `tag` overlay view: staging arm `UNION ALL` source arm. -/
def tagView (s : StoreState) : List TagRecord :=
  stagingTagRows s.changelog ++ sourceTagRows s.sourceTag

/-- The staging arm of the `thing` overlay view: changelog rows with
`kind = 'thing'` and `operation = 'insert'`. -/
def stagingThingRows (cl : List ChangelogRow) : List ThingRecord :=
  cl.filterMap fun row =>
    match row.change with
    | .insert (.thing url name summary category _tags) =>
        some ⟨url, name, summary, category⟩
    | _ => none

/-- The source arm of the `thing` overlay view. -/
def sourceThingRows (rows : List SourceThingRow) : List ThingRecord :=
  rows.map fun r => ⟨r.url, r.name, decodeSourceSummary r.summary, r.category_id⟩

/-- The `thing` overlay view: staging arm `UNION ALL` source arm. -/
def thingView (s : StoreState) : List ThingRecord :=
  stagingThingRows s.changelog ++ sourceThingRows s.sourceThing

/-- The `thing_tag` overlay view:
`SELECT * FROM staging.thing_tag UNION ALL SELECT * FROM source.thing_tag`. -/
def thingTagView (s : StoreState) : List ThingtagRow :=
  s.stagingThingTag ++ s.sourceThingTag

/-- Engine-level failures of a single SQL statement. -/
inductive SqlError where
  | constraintViolation
  | syntaxError
deriving Repr, DecidableEq

/-- Embeds `TagStore::get` (`src/store/tag.rs`): first row of the `tag` overlay
view matching the id. -/
def TagStore.get (s : StoreState) (id : String) : Option TagRecord :=
  (tagView s).find? fun r => r.id == id

/-- Embeds `TagStore::to_vec`: all rows of the `tag` overlay view. -/
def TagStore.toVec (s : StoreState) : List TagRecord :=
  tagView s

/-- Embeds `TagStore::add`: `INSERT INTO staging.tag (id, name, summary)`; the
primary key on `id` makes a duplicate id in `staging.tag` a constraint
violation. -/
def TagStore.add (s : StoreState) (r : TagRecord) : Except SqlError StoreState :=
  if s.stagingTag.any (fun x => x.id == r.id) then .error .constraintViolation
  else .ok { s with stagingTag := s.stagingTag ++ [r] }

/-- Embeds `TagStore::remove`: `DELETE FROM staging.tag WHERE id = $1` followed by
`DELETE FROM staging.thing_tag WHERE tag_id = $1`. -/
def TagStore.remove (s : StoreState) (id : String) : StoreState :=
  { s with
    stagingTag := s.stagingTag.filter fun x => x.id != id
    stagingThingTag := s.stagingThingTag.filter fun x => x.tag_id != id }

/-- Embeds `TagStore::replace`: `INSERT OR REPLACE INTO staging.tag`, an upsert
keyed on the primary key. -/
def TagStore.replace (s : StoreState) (r : TagRecord) : StoreState :=
  { s with stagingTag := (s.stagingTag.filter fun x => x.id != r.id) ++ [r] }

/-- Embeds `ThingStore::get` (`src/store/thing.rs`): first row of the `thing`
overlay view matching the url. -/
def ThingStore.get (s : StoreState) (url : String) : Option ThingRecord :=
  (thingView s).find? fun r => r.url == url

/-- Embeds `ThingStore::to_vec`: all rows of the `thing` overlay view. -/
def ThingStore.toVec (s : StoreState) : List ThingRecord :=
  thingView s

/-- Embeds `ThingStore::add`: `INSERT INTO staging.thing`. -/
def ThingStore.add (s : StoreState) (r : ThingRecord) : Except SqlError StoreState :=
  if s.stagingThing.any (fun x => x.url == r.url) then .error .constraintViolation
  else .ok { s with stagingThing := s.stagingThing ++ [r] }

/-- Embeds `ThingStore::remove`: `DELETE FROM staging.thing WHERE url = $1`
followed by `DELETE FROM staging.thing_tag WHERE thing_id = $1`. -/
def ThingStore.remove (s : StoreState) (url : String) : StoreState :=
  { s with
    stagingThing := s.stagingThing.filter fun x => x.url != url
    stagingThingTag := s.stagingThingTag.filter fun x => x.thing_id != url }

/-- Embeds `ThingStore::replace`: `INSERT OR REPLACE INTO staging.thing`. -/
def ThingStore.replace (s : StoreState) (r : ThingRecord) : StoreState :=
  { s with stagingThing := (s.stagingThing.filter fun x => x.url != r.url) ++ [r] }

/-- Embeds `ThingtagStore::add` (`src/store/thing_tag.rs`):
`INSERT INTO staging.thing_tag`; composite primary key. -/
def ThingtagStore.add (s : StoreState) (r : ThingtagRow) : Except SqlError StoreState :=
  if s.stagingThingTag.any (fun x => x.thing_id == r.thing_id && x.tag_id == r.tag_id) then
    .error .constraintViolation
  else .ok { s with stagingThingTag := s.stagingThingTag ++ [r] }

/-- Embeds `ThingtagStore::remove`: delete from `staging.thing_tag` by composite
key. -/
def ThingtagStore.remove (s : StoreState) (thingId tagId : String) : StoreState :=
  { s with
    stagingThingTag :=
      s.stagingThingTag.filter fun x => !(x.thing_id == thingId && x.tag_id == tagId) }

/-- Embeds `ChangeStore::add` (`src/store/change.rs`): append one row to
`staging.changelog`; the timestamp is generated at insert time. -/
def ChangeStore.add (s : StoreState) (ts : Nat) (c : Change) : StoreState :=
  { s with changelog := s.changelog ++ [⟨ts, c⟩] }

/-- The `ORDER BY timestamp ASC` relation used by `ChangeStore::to_vec`. -/
def tsLe (a b : ChangelogRow) : Prop :=
  a.timestamp ≤ b.timestamp

instance : DecidableRel tsLe :=
  fun a b => Nat.decLe a.timestamp b.timestamp

instance : IsTotal ChangelogRow tsLe :=
  ⟨fun a b => Nat.le_total a.timestamp b.timestamp⟩

instance : IsTrans ChangelogRow tsLe :=
  ⟨fun _ _ _ hab hbc => Nat.le_trans hab hbc⟩

/-- Embeds `ChangeStore::to_vec`: the changelog rows ordered by ascending
timestamp. -/
def ChangeStore.toVec (cl : List ChangelogRow) : List ChangelogRow :=
  List.insertionSort tsLe cl

/-- Embeds `ChangeStore::flush`: `DELETE FROM staging.changelog`. -/
def ChangeStore.flush (cl : List ChangelogRow) : List ChangelogRow :=
  let _ := cl
  []

/-- The application error type (`SomeError` wrapping `TagError::Duplicate`
and `ThingError::Duplicate`). -/
inductive SomeError where
  | tagDuplicate (id : String)
  | thingDuplicate (url : String)
deriving Repr, DecidableEq

/-- The outcome of a service call, carrying the resulting store state; on
an error the transaction is dropped, so the state is the caller's state. -/
inductive ServiceOutcome where
  | ok (s : StoreState)
  | err (e : SomeError) (s : StoreState)
deriving Repr, DecidableEq

/-- The duplicate error `assert_data_exists` raises for a payload. -/
def Data.dupError : Data → SomeError
  | .thing url _ _ _ _ => .thingDuplicate url
  | .tag id _ _ => .tagDuplicate id

/-- Embeds `assert_data_exists` (`src/services/staging.rs`): whether the payload's
id already resolves through the overlay (`ThingStore::get` /
`TagStore::get`). -/
def overlayResolves (s : StoreState) : Data → Bool
  | .thing url _ _ _ _ => (ThingStore.get s url).isSome
  | .tag id _ _ => (TagStore.get s id).isSome

/-- Embeds `services::staging::add`: check for a duplicate through the overlay,
then record an `Insert` event in the changelog and commit the
transaction. -/
def serviceAdd (s : StoreState) (ts : Nat) (d : Data) : ServiceOutcome :=
  match d with
  | .thing url _ _ _ _ =>
      if (ThingStore.get s url).isSome then .err (.thingDuplicate url) s
      else .ok (ChangeStore.add s ts (.insert d))
  | .tag id _ _ =>
      if (TagStore.get s id).isSome then .err (.tagDuplicate id) s
      else .ok (ChangeStore.add s ts (.insert d))

/-- The three CSV resource files opened by `commit`; each is the list of
its serialized records (header row excluded; appends go to the end). -/
structure Files where
  tagFile : List (List String)
  thingFile : List (List String)
  thingTagFile : List (List String)
deriving Repr, DecidableEq

/-- Embeds `empty_string::serialize` (`src/entities/thing.rs`): `None` is written
as the empty string, `Some v` as `v`. -/
def emptyStringSerialize : Option String → String
  | none => ""
  | some v => v

/-- CSV serialization of a `tag::Record` by `write_once`: the csv crate
writes an absent optional field as an empty cell. -/
def serializeTagRecord (r : TagRecord) : List String :=
  [r.id, emptyStringSerialize r.name, emptyStringSerialize r.summary]

/-- CSV serialization of a `thing::Record` by `write_once`; the summary
field goes through `empty_string::serialize`. -/
def serializeThingRecord (r : ThingRecord) : List String :=
  [r.url, r.name, emptyStringSerialize r.summary, r.category_id]

/-- CSV serialization of one `(thing_id, tag_id)` pair by `write_many`. -/
def serializeThingTag (r : ThingtagRow) : List String :=
  [r.thing_id, r.tag_id]

/-- The outcome of `services::staging::commit`, carrying the CSV files and
the changelog afterwards: `ok` (all events drained, changelog flushed),
`err` (a write returned an error which `?` propagated, so
`ChangeStore::flush` never ran), or `panicked` (an `unimplemented!()` arm
was reached). -/
inductive CommitOutcome where
  | ok (fs : Files) (changelog : List ChangelogRow)
  | err (fs : Files) (changelog : List ChangelogRow)
  | panicked (fs : Files) (changelog : List ChangelogRow)
deriving Repr, DecidableEq

/-- True exactly when `commit` returned `Err(..)` as a value of its result
type. -/
def CommitOutcome.isErr : CommitOutcome → Bool
  | .err _ _ => true
  | _ => false

/-- True exactly when `commit` panicked via `unimplemented!()`. -/
def CommitOutcome.isPanicked : CommitOutcome → Bool
  | .panicked _ _ => true
  | _ => false

/-- The state of the event loop in `commit`: either all events were
drained, or a write failed (the index of the failing write is kept), or an
`unimplemented!()` arm was reached. -/
inductive LoopResult where
  | drained (fs : Files) (k : Nat)
  | failed (fs : Files) (k : Nat)
  | panicked (fs : Files)
deriving Repr, DecidableEq

/-- The event loop of `services::staging::commit`. `oracle k` tells whether
the `k`-th fallible write (a `write_once` or `write_many` call) succeeds.
An `Insert(Tag)` performs one write to the tag file; an `Insert(Thing)`
writes the thing record, then one `thing_tag` record per associated tag
id; `Replace` and `Delete` hit `unimplemented!()`. -/
def commitLoop (oracle : Nat → Bool) :
    List ChangelogRow → Files → Nat → LoopResult
  | [], fs, k => .drained fs k
  | ev :: rest, fs, k =>
    match ev.change with
    | .insert (.tag id name summary) =>
        if oracle k then
          commitLoop oracle rest
            { fs with tagFile := fs.tagFile ++ [serializeTagRecord ⟨id, name, summary⟩] }
            (k + 1)
        else .failed fs k
    | .insert (.thing url name summary category tags) =>
        if oracle k then
          let fs1 :=
            { fs with
              thingFile :=
                fs.thingFile ++ [serializeThingRecord ⟨url, name, summary, category⟩] }
          if oracle (k + 1) then
            commitLoop oracle rest
              { fs1 with
                thingTagFile :=
                  fs1.thingTagFile ++ tags.map fun t => serializeThingTag ⟨url, t⟩ }
              (k + 2)
          else .failed fs1 (k + 1)
        else .failed fs k
    | .replace _ => .panicked fs
    | .delete _ => .panicked fs

/-- Embeds `services::staging::commit`: drain `ChangeStore::to_vec` in timestamp
order, appending to the CSV files; only after every event succeeded run
`ChangeStore::flush` and commit the transaction. An error or panic leaves
the changelog as it was (the transaction is rolled back and the flush
never ran). -/
def commit (oracle : Nat → Bool) (fs : Files) (cl : List ChangelogRow) :
    CommitOutcome :=
  match commitLoop oracle (ChangeStore.toVec cl) fs 0 with
  | .drained fs1 _ => .ok fs1 (ChangeStore.flush cl)
  | .failed fs1 _ => .err fs1 cl
  | .panicked fs1 => .panicked fs1 cl

/-- The oracle under which every CSV write succeeds. -/
def trueOracle : Nat → Bool := fun _ => true

/-- The tag-file rows `commit` appends for a list of events, one per
`Insert(Tag)`, in event order. -/
def tagAppends (evs : List ChangelogRow) : List (List String) :=
  evs.filterMap fun ev =>
    match ev.change with
    | .insert (.tag id name summary) => some (serializeTagRecord ⟨id, name, summary⟩)
    | _ => none

/-- The thing-file rows `commit` appends, one per `Insert(Thing)`. -/
def thingAppends (evs : List ChangelogRow) : List (List String) :=
  evs.filterMap fun ev =>
    match ev.change with
    | .insert (.thing url name summary category _tags) =>
        some (serializeThingRecord ⟨url, name, summary, category⟩)
    | _ => none

/-- The thing_tag-file rows `commit` appends: one per associated tag id of
each `Insert(Thing)`, in event order. -/
def thingTagAppends (evs : List ChangelogRow) : List (List String) :=
  evs.flatMap fun ev =>
    match ev.change with
    | .insert (.thing url _ _ _ tags) => tags.map fun t => serializeThingTag ⟨url, t⟩
    | _ => []

/-- The single-quote character used by SQL string literals. -/
def sqc : Char := Char.ofNat 39

/-- Raw interpolation of one id by `TagStore::list_without`: the id is wrapped
in single quotes with no escaping whatsoever. -/
def quoteRaw (x : String) : String :=
  String.singleton sqc ++ x ++ String.singleton sqc

/-- Concatenation (join with a comma) of the quoted ids interpolated into the
`id NOT IN (...)` clause of `TagStore::list_without`. -/
def renderIdList : List String → String
  | [] => ""
  | [x] => quoteRaw x
  | x :: y :: tl => quoteRaw x ++ "," ++ renderIdList (y :: tl)

/-- The SQL tokenizer's scan of a string literal body, entered after the
opening quote: `''` is an escaped quote, any other quote closes the
literal, and end of input before a closing quote is a syntax error. -/
def scanLitAux : List Char → Option (List Char × List Char)
  | [] => none
  | [c] => if c = sqc then some ([], []) else none
  | c :: d :: rest =>
    if c = sqc then
      if d = sqc then (scanLitAux rest).map fun p => (sqc :: p.1, p.2)
      else some ([], d :: rest)
    else (scanLitAux (d :: rest)).map fun p => (c :: p.1, p.2)

/-- Fuelled parser for the literal list inside `IN (...)`: a
comma-separated sequence of quoted string literals (SQLite also accepts
the empty list). Returns `none` exactly when the clause is not
well-formed, i.e. the interpolation structurally corrupted the query. -/
def parseLitsFuel : Nat → List Char → Option (List String)
  | _, [] => some []
  | 0, _ :: _ => none
  | fuel + 1, c :: rest =>
    if c = sqc then
      match scanLitAux rest with
      | some (acc, []) => some [String.mk acc]
      | some (acc, d :: rem2) =>
          if d = ',' then (parseLitsFuel fuel rem2).map fun tl => String.mk acc :: tl
          else none
      | none => none
    else none

/-- Parse the literal list of an `IN (...)` clause. -/
def parseLits (cs : List Char) : Option (List String) :=
  parseLitsFuel cs.length cs

/-- Embeds `TagStore::list_without`: build the `id NOT IN (...)` clause by raw
string interpolation of the ids, hand the query text to the engine (which
first parses the interpolated literal list), and filter the `tag` overlay
view by it. -/
def TagStore.listWithout (s : StoreState) (ids : List String) :
    Except SqlError (List TagRecord) :=
  match parseLits (renderIdList ids).data with
  | none => .error .syntaxError
  | some lits => .ok ((tagView s).filter fun r => !(lits.contains r.id))

/-- The Unicode White_Space property that Rust's `char::is_whitespace`
tests: U+0009..U+000D, U+0020, U+0085, U+00A0, U+1680, U+2000..U+200A,
U+2028, U+2029, U+202F, U+205F and U+3000. -/
def rustIsWhitespace (c : Char) : Bool :=
  (0x09 ≤ c.toNat && c.toNat ≤ 0x0D) || c.toNat = 0x20 || c.toNat = 0x85 ||
  c.toNat = 0xA0 || c.toNat = 0x1680 ||
  (0x2000 ≤ c.toNat && c.toNat ≤ 0x200A) || c.toNat = 0x2028 ||
  c.toNat = 0x2029 || c.toNat = 0x202F || c.toNat = 0x205F || c.toNat = 0x3000

/-- Trimming as in `empty_string::deserialize`, like Rust's `str::trim`:
leading and trailing Unicode White_Space characters are removed. -/
def rustTrim (s : String) : String :=
  String.mk (((s.data.dropWhile rustIsWhitespace).reverse.dropWhile
    rustIsWhitespace).reverse)

/-- Embeds `empty_string::deserialize` (`src/entities/thing.rs` and
`src/thing.rs`): a string that trims to empty becomes `None`; anything
else becomes `Some` of its trimmed form. -/
def emptyStringDeserialize (s : String) : Option String :=
  if rustTrim s = "" then none else some (rustTrim s)

/-- The source-ring projection of a store state, for frame conditions. -/
def sourceOf (s : StoreState) :
    List SourceTagRow × List SourceThingRow × List ThingtagRow :=
  (s.sourceTag, s.sourceThing, s.sourceThingTag)

/-- The store state after a fallible statement: its new state on success,
the unchanged state when the statement reported an error. -/
def afterExcept (r : Except SqlError StoreState) (s : StoreState) : StoreState :=
  match r with
  | .ok s1 => s1
  | .error _ => s

/-- A store state with empty rings. -/
def emptyState : StoreState :=
  ⟨[], [], [], [], [], [], []⟩

/-- Empty CSV resource files. -/
def filesEmpty : Files :=
  ⟨[], [], []⟩

/-- The oracle under which every CSV write fails. -/
def falseOracle : Nat → Bool := fun _ => false

/-- A store whose source ring holds the tag `a`, used to exercise the
duplicate check of `services::staging::add`. -/
def c6State : StoreState := ⟨[⟨"a", "A", ""⟩], [], [], [], [], [], []⟩

/-- A store whose source ring holds one `thing_tag` row `(u, t)`. -/
def c7State : StoreState := ⟨[], [], [⟨"u", "t"⟩], [], [], [], []⟩

/-- A one-event changelog holding an `Insert(Tag)`. -/
def c3Log : List ChangelogRow := [⟨1, .insert (.tag "a" none none)⟩]

/-- A one-event changelog holding a `Replace` event. -/
def c4Log : List ChangelogRow := [⟨5, .replace (.tag "a" none none)⟩]

/-- A one-event changelog holding a `Delete` event. -/
def c4DelLog : List ChangelogRow := [⟨3, .delete (.tag "x")⟩]

/-- A two-event changelog: a tag insert stamped after a thing insert. -/
def c2Log : List ChangelogRow :=
  [⟨2, .insert (.tag "b" (some "B") none)⟩,
   ⟨1, .insert (.thing "u" "n" none "c" ["t1", "t2"])⟩]

/-- A store whose source ring holds the tag `a` with name `src` and an
empty summary cell. -/
def c1Base : StoreState := ⟨[⟨"a", "src", ""⟩], [], [], [], [], [], []⟩

/-- A record staged under the id `a` that also exists in the source ring. -/
def c1Staged : TagRecord := ⟨"a", some "staged", none⟩

/-- The state `TagStore::add` produces from `c1Base` for `c1Staged`. -/
def c1After : StoreState := { c1Base with stagingTag := [c1Staged] }

/-- A store whose source ring holds the single tag `x`. -/
def c8State : StoreState := ⟨[⟨"x", "X", ""⟩], [], [], [], [], [], []⟩

/-- An id containing a raw single quote. -/
def c8BadId : String := "a" ++ String.singleton sqc ++ "b"

/-- An id containing a doubled single quote, which the SQL lexer reads as
a single escaped quote inside the literal. -/
def c8EscId : String := "x" ++ String.singleton sqc ++ String.singleton sqc ++ "y"

/-- A store whose source ring holds a tag whose id is `c8EscId`. -/
def c8EscState : StoreState := ⟨[⟨c8EscId, "X", ""⟩], [], [], [], [], [], []⟩

/-- An id whose raw interpolation renders as the two separate SQL literals
`a` and `b`. -/
def c8InjId : String := "a" ++ String.singleton sqc ++ "," ++ String.singleton sqc ++ "b"

/-- A store whose source ring holds the single tag `a`, none of whose rows
carry the id `c8InjId`. -/
def c8InjState : StoreState := ⟨[⟨"a", "A", ""⟩], [], [], [], [], [], []⟩

/-! Helper lemmas. -/

/-- Scanning a quote-free literal body stops at the closing quote, provided
what follows is empty or does not begin with another quote. -/
theorem scanLitAux_closes (xs : List Char) :
    ∀ rem : List Char, sqc ∉ xs →
      (rem = [] ∨ ∃ d rest, rem = d :: rest ∧ d ≠ sqc) →
      scanLitAux (xs ++ sqc :: rem) = some (xs, rem) := by
  induction xs with
  | nil =>
    intro rem _ hrem
    rcases hrem with rfl | ⟨d, rest, rfl, hd⟩
    · simp [scanLitAux]
    · simp [scanLitAux, hd]
  | cons x xs ih =>
    intro rem hq hrem
    have hx : x ≠ sqc := fun hxe => hq (hxe ▸ List.mem_cons_self x xs)
    have hq2 : sqc ∉ xs := fun hm => hq (List.mem_cons_of_mem _ hm)
    cases he : xs ++ sqc :: rem with
    | nil => simp at he
    | cons d rest =>
      have hstep : scanLitAux (x :: d :: rest) =
          (scanLitAux (d :: rest)).map fun p => (x :: p.1, p.2) := by
        simp [scanLitAux, hx]
      rw [List.cons_append, he, hstep, ← he, ih rem hq2 hrem]
      rfl

/-- With enough fuel, the rendered clause of quote-free ids parses back to
exactly those ids. -/
theorem parseLitsFuel_render (ids : List String) :
    ∀ fuel, (∀ x ∈ ids, sqc ∉ x.data) →
      (renderIdList ids).data.length ≤ fuel →
      parseLitsFuel fuel (renderIdList ids).data = some ids := by
  induction ids with
  | nil =>
    intro fuel _ _
    simp [renderIdList, parseLitsFuel]
  | cons x tl ih =>
    intro fuel h hf
    have hx : sqc ∉ x.data := h x (List.mem_cons_self x tl)
    cases tl with
    | nil =>
      have hdata : (renderIdList [x]).data = sqc :: (x.data ++ sqc :: []) := by
        simp [renderIdList, quoteRaw]
      rw [hdata] at hf ⊢
      cases fuel with
      | zero => simp at hf
      | succ f =>
        show parseLitsFuel (f + 1) (sqc :: (x.data ++ sqc :: [])) = some [x]
        unfold parseLitsFuel
        rw [if_pos rfl, scanLitAux_closes x.data [] hx (Or.inl rfl)]
    | cons y tl2 =>
      have hdata : (renderIdList (x :: y :: tl2)).data =
          sqc :: (x.data ++ sqc :: ',' :: (renderIdList (y :: tl2)).data) := by
        simp [renderIdList, quoteRaw]
      rw [hdata] at hf ⊢
      cases fuel with
      | zero => simp at hf
      | succ f =>
        show parseLitsFuel (f + 1)
            (sqc :: (x.data ++ sqc :: ',' :: (renderIdList (y :: tl2)).data)) =
          some (x :: y :: tl2)
        unfold parseLitsFuel
        rw [if_pos rfl,
          scanLitAux_closes x.data (',' :: (renderIdList (y :: tl2)).data) hx
            (Or.inr ⟨',', (renderIdList (y :: tl2)).data, rfl, by decide⟩)]
        have htl : ∀ z ∈ y :: tl2, sqc ∉ z.data :=
          fun z hz => h z (List.mem_cons_of_mem _ hz)
        have hlen : (renderIdList (y :: tl2)).data.length ≤ f := by
          simp only [List.length_cons, List.length_append] at hf
          omega
        simp [ih f htl hlen]

/-- Round trip of the interpolated `NOT IN` clause for quote-free ids. -/
theorem parseLits_render (ids : List String) (h : ∀ x ∈ ids, sqc ∉ x.data) :
    parseLits (renderIdList ids).data = some ids :=
  parseLitsFuel_render ids _ h le_rfl

/-- Characterization of the trim used by `empty_string::deserialize`: a
string trims to empty exactly when all its characters are whitespace. -/
theorem rustTrim_eq_empty_iff (s : String) :
    rustTrim s = "" ↔ ∀ c ∈ s.data, rustIsWhitespace c := by
  unfold rustTrim
  constructor
  · intro h c hc
    have hl : ((s.data.dropWhile rustIsWhitespace).reverse.dropWhile
        rustIsWhitespace).reverse = [] := congrArg String.data h
    rw [List.reverse_eq_nil_iff, List.dropWhile_eq_nil_iff] at hl
    have hsplit : s.data.takeWhile rustIsWhitespace ++
        s.data.dropWhile rustIsWhitespace = s.data :=
      List.takeWhile_append_dropWhile _ _
    rw [← hsplit] at hc
    rcases List.mem_append.mp hc with h1 | h2
    · exact List.mem_takeWhile_imp h1
    · exact hl c (List.mem_reverse.mpr h2)
  · intro h
    have hd : s.data.dropWhile rustIsWhitespace = [] :=
      List.dropWhile_eq_nil_iff.mpr fun c hc => h c hc
    rw [hd]
    rfl

/-- Draining a changelog of inserts under an all-succeeding oracle appends
exactly the serialized records of each event, in order, to each file. -/
theorem commitLoop_drains (evs : List ChangelogRow) :
    ∀ fs k, (∀ ev ∈ evs, ev.change.isInsert = true) →
      ∃ k1, commitLoop trueOracle evs fs k =
        .drained ⟨fs.tagFile ++ tagAppends evs,
                  fs.thingFile ++ thingAppends evs,
                  fs.thingTagFile ++ thingTagAppends evs⟩ k1 := by
  induction evs with
  | nil =>
    intro fs k _
    exact ⟨k, by simp [commitLoop, tagAppends, thingAppends, thingTagAppends]⟩
  | cons ev rest ih =>
    intro fs k h
    have hrest : ∀ e ∈ rest, e.change.isInsert = true :=
      fun e he => h e (List.mem_cons_of_mem _ he)
    cases hc : ev.change with
    | insert d =>
      cases d with
      | tag id name summary =>
        obtain ⟨k1, hk⟩ := ih
          { fs with tagFile := fs.tagFile ++ [serializeTagRecord ⟨id, name, summary⟩] }
          (k + 1) hrest
        refine ⟨k1, ?_⟩
        simp only [commitLoop, hc, trueOracle, if_true]
        rw [hk]
        simp [tagAppends, thingAppends, thingTagAppends, hc]
      | thing url name summary cat tags =>
        obtain ⟨k1, hk⟩ := ih
          { fs with
            thingFile := fs.thingFile ++ [serializeThingRecord ⟨url, name, summary, cat⟩],
            thingTagFile := fs.thingTagFile ++ tags.map fun t => serializeThingTag ⟨url, t⟩ }
          (k + 2) hrest
        refine ⟨k1, ?_⟩
        simp only [commitLoop, hc, trueOracle, if_true]
        rw [hk]
        simp [tagAppends, thingAppends, thingTagAppends, hc]
    | replace d =>
      have hm := h ev (List.mem_cons_self ev rest)
      rw [hc] at hm; simp [Change.isInsert] at hm
    | delete r =>
      have hm := h ev (List.mem_cons_self ev rest)
      rw [hc] at hm; simp [Change.isInsert] at hm

/-- A changelog containing a `Replace` or `Delete` event makes the event
loop end in a panic even when every write would succeed. -/
theorem commitLoop_panics (evs : List ChangelogRow) :
    ∀ fs k, (∃ ev ∈ evs, ev.change.isUnsupported = true) →
      ∃ fs1, commitLoop trueOracle evs fs k = .panicked fs1 := by
  induction evs with
  | nil => intro fs k h; simp at h
  | cons ev rest ih =>
    intro fs k h
    cases hc : ev.change with
    | insert d =>
      have hrest : ∃ e ∈ rest, e.change.isUnsupported = true := by
        rcases h with ⟨e, he, hu⟩
        rcases List.mem_cons.mp he with rfl | hm
        · rw [hc] at hu; simp [Change.isUnsupported] at hu
        · exact ⟨e, hm, hu⟩
      cases d with
      | tag id name summary =>
        simpa [commitLoop, hc, trueOracle] using ih _ (k + 1) hrest
      | thing url name summary cat tags =>
        simpa [commitLoop, hc, trueOracle] using ih _ (k + 2) hrest
    | replace d => exact ⟨fs, by simp [commitLoop, hc]⟩
    | delete r => exact ⟨fs, by simp [commitLoop, hc]⟩

/-! Claim theorems. -/

/-- C1 (counterexample): a Tag staged via the Repository-level
`TagStore::add` is not returned by an immediately following `get`, and an
id present in both the staging `tag` table and the source ring resolves to
the source row, because the `tag` overlay view reads the changelog, not
`staging.tag`. Concretely: with the source tag `(a, src, empty)`, staging
`(a, staged, none)` via `add` succeeds, yet `get a` returns the source row
and not the staged record. -/
theorem c1_counterexample :
    TagStore.add c1Base c1Staged = .ok c1After ∧
    TagStore.get c1After "a" = some ⟨"a", some "src", none⟩ ∧
    TagStore.get c1After "a" ≠ some c1Staged :=
  ⟨rfl, by decide, by decide⟩

/-- C1 (amended): a Tag or Thing staged through the changelog — the path
taken by the staging service `add`, which records an `Insert` event via
`ChangeStore::add` — is returned by an immediately following `get` in the
same session; and whenever an id has a row in the changelog arm of the
overlay, `get` returns that staging row (the staging arm precedes the
source arm in the view), not the source row. -/
theorem overlay_staging_visibility (s : StoreState) (ts : Nat)
    (id : String) (name summary : Option String)
    (url tname : String) (tsum : Option String) (cat : String) (tags : List String)
    (r : TagRecord) (w : ThingRecord) :
    (TagStore.get s id = none →
      serviceAdd s ts (.tag id name summary) =
        .ok (ChangeStore.add s ts (.insert (.tag id name summary))) ∧
      TagStore.get (ChangeStore.add s ts (.insert (.tag id name summary))) id =
        some ⟨id, name, summary⟩) ∧
    (ThingStore.get s url = none →
      serviceAdd s ts (.thing url tname tsum cat tags) =
        .ok (ChangeStore.add s ts (.insert (.thing url tname tsum cat tags))) ∧
      ThingStore.get (ChangeStore.add s ts (.insert (.thing url tname tsum cat tags))) url =
        some ⟨url, tname, tsum, cat⟩) ∧
    ((stagingTagRows s.changelog).find? (fun x => x.id == id) = some r →
      TagStore.get s id = some r) ∧
    ((stagingThingRows s.changelog).find? (fun x => x.url == url) = some w →
      ThingStore.get s url = some w) := by
  refine ⟨?_, ?_, ?_, ?_⟩
  · intro h
    constructor
    · simp [serviceAdd, h]
    · have hsplit := h
      unfold TagStore.get tagView at hsplit
      rw [List.find?_append] at hsplit
      have h1 : (stagingTagRows s.changelog).find? (fun x => x.id == id) = none :=
        (Option.or_eq_none.mp hsplit).1
      have h2 : (sourceTagRows s.sourceTag).find? (fun x => x.id == id) = none :=
        (Option.or_eq_none.mp hsplit).2
      unfold TagStore.get tagView ChangeStore.add
      simp only
      rw [stagingTagRows, List.filterMap_append, ← stagingTagRows]
      rw [List.append_assoc, List.find?_append, h1]
      simp [stagingTagRows, List.find?_append, h2]
  · intro h
    constructor
    · simp [serviceAdd, h]
    · have hsplit := h
      unfold ThingStore.get thingView at hsplit
      rw [List.find?_append] at hsplit
      have h1 : (stagingThingRows s.changelog).find? (fun x => x.url == url) = none :=
        (Option.or_eq_none.mp hsplit).1
      have h2 : (sourceThingRows s.sourceThing).find? (fun x => x.url == url) = none :=
        (Option.or_eq_none.mp hsplit).2
      unfold ThingStore.get thingView ChangeStore.add
      simp only
      rw [stagingThingRows, List.filterMap_append, ← stagingThingRows]
      rw [List.append_assoc, List.find?_append, h1]
      simp [stagingThingRows, List.find?_append, h2]
  · intro h
    unfold TagStore.get tagView
    rw [List.find?_append, h]
    rfl
  · intro h
    unfold ThingStore.get thingView
    rw [List.find?_append, h]
    rfl

/-- C1 (witness): on the empty store, staging the tag `a` through the
changelog makes `get a` return it. -/
theorem c1_witness :
    TagStore.get (ChangeStore.add emptyState 1 (.insert (.tag "a" none (some "S")))) "a" =
      some ⟨"a", none, some "S"⟩ :=
  ((overlay_staging_visibility emptyState 1 "a" none (some "S") "u" "n" none "c" []
      ⟨"x", none, none⟩ ⟨"x", "n", none, "c"⟩).1 (by decide)).2

/-- C2: when every changelog event is an `Insert`, `commit` iterates the
events in ascending timestamp order (a sorted permutation of the
changelog) and appends exactly one serialized record per `Insert(Tag)` to
the tag file, one per `Insert(Thing)` to the thing file plus one
`thing_tag` record per associated tag id, leaving all pre-existing file
rows in place as a prefix, and afterwards the changelog is empty. -/
theorem commit_drains_changelog (fs : Files) (cl : List ChangelogRow)
    (h : ∀ ev ∈ cl, ev.change.isInsert = true) :
    List.Sorted tsLe (ChangeStore.toVec cl) ∧
    (ChangeStore.toVec cl).Perm cl ∧
    commit trueOracle fs cl =
      .ok ⟨fs.tagFile ++ tagAppends (ChangeStore.toVec cl),
           fs.thingFile ++ thingAppends (ChangeStore.toVec cl),
           fs.thingTagFile ++ thingTagAppends (ChangeStore.toVec cl)⟩ [] := by
  refine ⟨List.sorted_insertionSort tsLe cl, List.perm_insertionSort tsLe cl, ?_⟩
  have h2 : ∀ ev ∈ ChangeStore.toVec cl, ev.change.isInsert = true :=
    fun ev hev => h ev ((List.perm_insertionSort tsLe cl).mem_iff.mp hev)
  obtain ⟨k1, hk⟩ := commitLoop_drains (ChangeStore.toVec cl) fs 0 h2
  simp [commit, hk, ChangeStore.flush]

/-- C2 (witness): committing a thing insert stamped 1 and a tag insert
stamped 2 appends their records and empties the changelog. -/
theorem c2_witness :
    commit trueOracle filesEmpty c2Log =
      .ok ⟨filesEmpty.tagFile ++ tagAppends (ChangeStore.toVec c2Log),
           filesEmpty.thingFile ++ thingAppends (ChangeStore.toVec c2Log),
           filesEmpty.thingTagFile ++ thingTagAppends (ChangeStore.toVec c2Log)⟩ [] :=
  (commit_drains_changelog filesEmpty c2Log (by decide)).2.2

/-- C3: whenever `commit` ends with a write error, the error is returned
as a value and the changelog afterwards is exactly the changelog from
before the attempt — `ChangeStore::flush` only runs after every event has
been drained, so a failed run leaves every row for a retry. -/
theorem commit_error_preserves_changelog (oracle : Nat → Bool) (fs : Files)
    (cl : List ChangelogRow) (h : (commit oracle fs cl).isErr = true) :
    ∃ fs1, commit oracle fs cl = .err fs1 cl := by
  unfold commit at h ⊢
  cases hl : commitLoop oracle (ChangeStore.toVec cl) fs 0 with
  | drained fs1 k => rw [hl] at h; simp [CommitOutcome.isErr] at h
  | failed fs1 k => exact ⟨fs1, rfl⟩
  | panicked fs1 => rw [hl] at h; simp [CommitOutcome.isErr] at h

/-- C3 (witness): a commit whose first write fails returns an error with
the one-event changelog intact. -/
theorem c3_witness : ∃ fs1, commit falseOracle filesEmpty c3Log = .err fs1 c3Log :=
  commit_error_preserves_changelog falseOracle filesEmpty c3Log (by decide)

/-- C4 (counterexample): a `Replace` event reaching the flush pipeline
does not produce an unsupported-operation error as a value of the result
type — `unimplemented!()` panics instead, so the outcome is a panic and
`isErr` is false. -/
theorem c4_counterexample :
    (commit trueOracle filesEmpty c4Log).isPanicked = true ∧
    (commit trueOracle filesEmpty c4Log).isErr = false := by decide

/-- C4 (amended): when a `Replace` or `Delete` changelog event reaches the
commit pipeline, the flush aborts immediately via the `unimplemented!()`
panic — the event is not silently no-opped and the changelog survives
unchanged — but the failure is a panic, distinct from yet not among the
error values of the operation's result type. -/
theorem commit_unsupported_panics (fs : Files) (cl : List ChangelogRow)
    (h : ∃ ev ∈ cl, ev.change.isUnsupported = true) :
    ∃ fs1, commit trueOracle fs cl = .panicked fs1 cl ∧
      (commit trueOracle fs cl).isErr = false := by
  have h2 : ∃ ev ∈ ChangeStore.toVec cl, ev.change.isUnsupported = true := by
    obtain ⟨ev, hm, hu⟩ := h
    exact ⟨ev, (List.perm_insertionSort tsLe cl).mem_iff.mpr hm, hu⟩
  obtain ⟨fs1, hl⟩ := commitLoop_panics (ChangeStore.toVec cl) fs 0 h2
  refine ⟨fs1, ?_, ?_⟩ <;> simp [commit, hl, CommitOutcome.isErr]

/-- C4 (witness): a `Delete` event makes the flush panic with the
changelog preserved and no error value returned. -/
theorem c4_witness :
    ∃ fs1, commit trueOracle filesEmpty c4DelLog = .panicked fs1 c4DelLog ∧
      (commit trueOracle filesEmpty c4DelLog).isErr = false :=
  commit_unsupported_panics filesEmpty c4DelLog (by decide)

/-- C5: every implemented Repository write — `add`, `remove`, `replace`
for Tag and Thing and `add`, `remove` for ThingTag — leaves the
source-ring relations unchanged, whether the statement succeeds or errors:
each statement touches only `staging.*` tables. -/
theorem repository_writes_staging_only (s : StoreState) (tr : TagRecord)
    (th : ThingRecord) (tt : ThingtagRow) (tagId thingUrl thingId tagId2 : String) :
    sourceOf (afterExcept (TagStore.add s tr) s) = sourceOf s ∧
    sourceOf (TagStore.remove s tagId) = sourceOf s ∧
    sourceOf (TagStore.replace s tr) = sourceOf s ∧
    sourceOf (afterExcept (ThingStore.add s th) s) = sourceOf s ∧
    sourceOf (ThingStore.remove s thingUrl) = sourceOf s ∧
    sourceOf (ThingStore.replace s th) = sourceOf s ∧
    sourceOf (afterExcept (ThingtagStore.add s tt) s) = sourceOf s ∧
    sourceOf (ThingtagStore.remove s thingId tagId2) = sourceOf s := by
  refine ⟨?_, rfl, rfl, ?_, rfl, rfl, ?_, rfl⟩
  · unfold TagStore.add
    split <;> rfl
  · unfold ThingStore.add
    split <;> rfl
  · unfold ThingtagStore.add
    split <;> rfl

/-- C6: staging a change whose id already resolves through the overlay
fails with the entity's Duplicate error before anything is written: the
returned state is exactly the caller's state, so the changelog gains no
event. -/
theorem staging_duplicate_rejected (s : StoreState) (ts : Nat) (d : Data)
    (h : overlayResolves s d = true) :
    serviceAdd s ts d = .err d.dupError s := by
  cases d with
  | thing url name summary cat tags =>
      simp only [overlayResolves] at h
      cases hg : ThingStore.get s url with
      | none => rw [hg] at h; simp at h
      | some v => simp [serviceAdd, Data.dupError, hg]
  | tag id name summary =>
      simp only [overlayResolves] at h
      cases hg : TagStore.get s id with
      | none => rw [hg] at h; simp at h
      | some v => simp [serviceAdd, Data.dupError, hg]

/-- C6 (witness): staging the tag `a` over a source ring already holding
`a` yields the Duplicate error and an unchanged store. -/
theorem c6_witness :
    serviceAdd c6State 7 (.tag "a" none none) = .err (.tagDuplicate "a") c6State :=
  staging_duplicate_rejected c6State 7 (.tag "a" none none) (by decide)

/-- C7 (counterexample): removing the Thing `u` does not purge its join
rows from the overlay — a `thing_tag` row living in the source ring is
still queryable afterwards, because `remove` only deletes from
`staging.thing_tag`. -/
theorem c7_counterexample :
    (⟨"u", "t"⟩ : ThingtagRow) ∈ thingTagView (ThingStore.remove c7State "u") := by
  decide

/-- C7 (amended): after `remove(thing.url)` no staging `thing_tag` row
with that `thing_id` remains, and any row with that `thing_id` still
queryable in the overlay comes from the source ring, to which deletes are
never propagated. -/
theorem remove_thing_cascades_staging (s : StoreState) (url : String) :
    ((ThingStore.remove s url).stagingThingTag.all fun row => row.thing_id != url) = true ∧
    ∀ row ∈ thingTagView (ThingStore.remove s url),
      row.thing_id = url → row ∈ s.sourceThingTag := by
  constructor
  · rw [List.all_eq_true]
    intro x hx
    exact (List.mem_filter.mp hx).2
  · intro row hrow hid
    unfold thingTagView ThingStore.remove at hrow
    rcases List.mem_append.mp hrow with h1 | h2
    · have hne := (List.mem_filter.mp h1).2
      simp [hid] at hne
    · exact h2

/-- C7 (witness): the surviving overlay row of the counterexample store is
indeed a source-ring row. -/
theorem c7_witness : (⟨"u", "t"⟩ : ThingtagRow) ∈ c7State.sourceThingTag :=
  (remove_thing_cascades_staging c7State "u").2 ⟨"u", "t"⟩ (by decide) rfl

/-- C8 (counterexample): `list_without` is not correct for every
identifier string, because the unescaped interpolation hands
quote-containing ids straight to the SQL lexer. Three concrete failures:
the id `a'b` structurally corrupts the `NOT IN` clause, so the call
returns a syntax error instead of the filtered overlay rows it should
have returned; the id `x''y` is lexed as the escaped literal `x'y`, so
the excluded row itself is returned; and the id `a','b` is lexed as the
two literals `a` and `b`, silently excluding a row that should have been
returned. -/
theorem c8_counterexample :
    (TagStore.listWithout c8State [c8BadId] = .error .syntaxError ∧
      (tagView c8State).filter (fun r => !([c8BadId].contains r.id)) =
        [⟨"x", some "X", none⟩]) ∧
    (TagStore.listWithout c8EscState [c8EscId] = .ok [⟨c8EscId, some "X", none⟩] ∧
      (tagView c8EscState).filter (fun r => !([c8EscId].contains r.id)) = []) ∧
    (TagStore.listWithout c8InjState [c8InjId] = .ok [] ∧
      (tagView c8InjState).filter (fun r => !([c8InjId].contains r.id)) =
        [⟨"a", some "A", none⟩]) :=
  ⟨⟨rfl, by decide⟩, ⟨rfl, by decide⟩, ⟨rfl, by decide⟩⟩

/-- C8 (amended): for excluded ids free of single quotes, `list_without`
returns exactly the rows of the `tag` overlay view whose id is not among
the excluded ids; in particular no returned row carries an excluded id, so
after `remove(category_tag_id)` the call never returns that id. -/
theorem list_without_filters (s : StoreState) (ids : List String)
    (h : ∀ x ∈ ids, sqc ∉ x.data) :
    TagStore.listWithout s ids = .ok ((tagView s).filter fun r => !(ids.contains r.id)) ∧
    ∀ l, TagStore.listWithout s ids = .ok l → ∀ r ∈ l, r.id ∉ ids := by
  have hp := parseLits_render ids h
  constructor
  · simp [TagStore.listWithout, hp]
  · intro l hl r hr
    simp only [TagStore.listWithout, hp] at hl
    injection hl with hl
    subst hl
    have hmem := (List.mem_filter.mp hr).2
    simpa using hmem

/-- C8 (witness): excluding the quote-free id `zz` returns the full
single-row overlay. -/
theorem c8_witness :
    TagStore.listWithout c8State ["zz"] = .ok [⟨"x", some "X", none⟩] := by
  have h := (list_without_filters c8State ["zz"] (by decide)).1
  have he : (tagView c8State).filter (fun r => !(["zz"].contains r.id)) =
      [⟨"x", some "X", none⟩] := by decide
  rw [h, he]

/-- C9: the empty-string convention round-trips losslessly: any source
summary cell decodes through the overlay views (both `tag` and `thing`
apply the same `iif` normalization) and serializes back to the identical
cell; in particular an empty cell decodes to `none` and a `None` summary
serializes to the empty string. -/
theorem summary_empty_string_roundtrip (cell : String) (i n : String)
    (r : SourceTagRow) (t : SourceThingRow) :
    emptyStringSerialize (decodeSourceSummary cell) = cell ∧
    decodeSourceSummary "" = none ∧
    emptyStringSerialize none = "" ∧
    tagView { emptyState with sourceTag := [r] } =
      [⟨r.id, some r.name, decodeSourceSummary r.summary⟩] ∧
    thingView { emptyState with sourceThing := [t] } =
      [⟨t.url, t.name, decodeSourceSummary t.summary, t.category_id⟩] ∧
    tagView { emptyState with sourceTag := [⟨i, n, ""⟩] } = [⟨i, some n, none⟩] := by
  refine ⟨?_, rfl, rfl, ?_, ?_, ?_⟩
  · by_cases hc : cell = "" <;> simp [decodeSourceSummary, emptyStringSerialize, hc]
  · simp [tagView, stagingTagRows, sourceTagRows, emptyState]
  · simp [thingView, stagingThingRows, sourceThingRows, emptyState]
  · simp [tagView, stagingTagRows, sourceTagRows, emptyState, decodeSourceSummary]

/-- C10: the `empty_string` deserializer maps every string consisting only
of Unicode White_Space characters (including the empty string) to `None`,
and every other string to `Some` of its trimmed form (which is nonempty);
consequently deserializing then serializing is not the identity on strings
with surrounding whitespace, as the instance shown. -/
theorem empty_string_deserialize_spec (s : String) :
    ((∀ c ∈ s.data, rustIsWhitespace c) → emptyStringDeserialize s = none) ∧
    (¬ (∀ c ∈ s.data, rustIsWhitespace c) →
      emptyStringDeserialize s = some (rustTrim s) ∧ rustTrim s ≠ "") ∧
    emptyStringSerialize (emptyStringDeserialize " a ") ≠ " a " := by
  refine ⟨?_, ?_, by decide⟩
  · intro h
    simp [emptyStringDeserialize, (rustTrim_eq_empty_iff s).mpr h]
  · intro h
    have hne : rustTrim s ≠ "" := fun he => h ((rustTrim_eq_empty_iff s).mp he)
    simp [emptyStringDeserialize, hne]

/-- C10 (witness): a whitespace-only string deserializes to `None` — also
when the whitespace is a vertical tab, which Rust trims — and a padded
string deserializes to its trimmed content. -/
theorem c10_witness :
    emptyStringDeserialize "  " = none ∧
    emptyStringDeserialize (String.singleton (Char.ofNat 0x0B)) = none ∧
    emptyStringDeserialize " a " = some "a" := by
  refine ⟨?_, ?_, ?_⟩
  · exact (empty_string_deserialize_spec "  ").1 (by decide)
  · exact (empty_string_deserialize_spec (String.singleton (Char.ofNat 0x0B))).1 (by decide)
  · have h := ((empty_string_deserialize_spec " a ").2.1 (by decide)).1
    rw [h]
    decide
